import Mathlib

/-!
# SalesHub mobile offline synchronization engine — verified shallow embedding

This file embeds, in Lean 4, the offline-sync core of the SalesHub mobile
application:

* `src/saleshub-mobile/src/services/offline.ts` (`OfflineStorage`): the
  durable mutation queue, entity caches, and sync-status blob persisted in
  `AsyncStorage`.
* `src/saleshub-mobile/src/services/sync.ts` (`SyncService`): the sync
  orchestrator (`syncAll`, `performSync`, `syncOfflineQueue`,
  `syncFromServer`, conflict resolution, `queueOperation`).

Modelling conventions:

* `AsyncStorage` is modelled as a reliable in-memory `Store` record; each
  `setItem` is a functional update.  Remote (Supabase) calls are the only
  fallible operations: a failure oracle `fails : QueueItem → Bool` says which
  drain attempts throw, and the four pull fetches are passed as
  `Except String (List Rec)` parameters.
* JavaScript timestamps (`Date.now()`) are `Int` parameters (`now`).
* A JavaScript `Map` is an insertion-ordered association list: `set` on an
  existing key overwrites in place, `values()` returns insertion order.
* JavaScript `a || b` on optional strings treats `undefined` and `""` as
  falsy (`jsOrStr`).
* `Array.prototype.sort` with a comparator is modelled by the stable
  `List.mergeSort` on the comparator's non-strict order.
-/

namespace SalesHub

/-- The three tables handled by the offline queue (`offline.ts`,
`OfflineQueueItem.table`). -/
inductive Table where
  | products
  | sales
  | sellers
deriving DecidableEq, Repr

/-- Mutation kinds (`OfflineQueueItem.type`). -/
inductive OpType where
  | create
  | update
  | delete
deriving DecidableEq, Repr

/-- Queue priorities (`OfflineQueueItem.priority`). -/
inductive Priority where
  | low
  | normal
  | high
  | critical
deriving DecidableEq, Repr

/-- String rendering of a table name, as used in template literals
`` `${item.table}_...` ``. -/
def Table.str : Table → String
  | .products => "products"
  | .sales => "sales"
  | .sellers => "sellers"

/-- String rendering of an operation type, as used in template literals. -/
def OpType.str : OpType → String
  | .create => "create"
  | .update => "update"
  | .delete => "delete"

/-- The mutation payload (`item.data` in `offline.ts`, typed `any`).  The
deduplication key only inspects `data?.id` and `data?.name`; `extra` stands
for the remaining fields so that distinct logical mutations are
distinguishable. `none` models an absent (`undefined`) field. -/
structure Payload where
  id : Option String
  name : Option String
  extra : Int
deriving DecidableEq, Repr

/-- JavaScript `a || b` for an optional string: `undefined` and `""` are
falsy. -/
def jsOrStr : Option String → String → String
  | none, d => d
  | some s, d => if s = "" then d else s

/-- One durable queue record (`OfflineQueueItem` in `offline.ts`). -/
structure QueueItem where
  id : String
  type : OpType
  table : Table
  data : Payload
  timestamp : Int
  retryCount : Nat
  priority : Option Priority
deriving DecidableEq, Repr

/-- `MAX_RETRY_COUNT` in `OfflineStorage`. -/
def MAX_RETRY_COUNT : Nat := 3

/-- `OfflineStorage.shouldRetryItem`: `item.retryCount < this.MAX_RETRY_COUNT`. -/
def shouldRetryItem (item : QueueItem) : Bool :=
  item.retryCount < MAX_RETRY_COUNT

/-- Deduplication key of a queue item
(`` `${item.table}_${item.data?.id || item.data?.name || 'unknown'}` ``). -/
def dedupKey (item : QueueItem) : String :=
  item.table.str ++ "_" ++ jsOrStr item.data.id (jsOrStr item.data.name "unknown")

/-- A JavaScript `Map<string, OfflineQueueItem>` as an insertion-ordered
association list. -/
abbrev JsMap := List (String × QueueItem)

/-- `Map.set`: overwrite in place if the key exists, else append. -/
def mapSet (m : JsMap) (k : String) (v : QueueItem) : JsMap :=
  match m with
  | [] => [(k, v)]
  | (k', v') :: rest => if k' = k then (k, v) :: rest else (k', v') :: mapSet rest k v

/-- `Map.get` / `Map.has`. -/
def mapGet (m : JsMap) (k : String) : Option QueueItem :=
  match m with
  | [] => none
  | (k', v') :: rest => if k' = k then some v' else mapGet rest k

/-- One step of the reverse-order loop in `OfflineStorage.deduplicateQueue`:
keep the first item seen for a key (the latest in queue order), replacing it
only when an earlier item has a strictly greater timestamp. -/
def dedupStep (m : JsMap) (item : QueueItem) : JsMap :=
  let key := dedupKey item
  match mapGet m key with
  | none => mapSet m key item
  | some existing =>
      if existing.timestamp < item.timestamp then mapSet m key item else m

/-- `OfflineStorage.deduplicateQueue`: iterate the queue from the last index
down to 0 building the `seen` map, then store `Array.from(seen.values())`. -/
def deduplicateQueue (q : List QueueItem) : List QueueItem :=
  (q.reverse.foldl dedupStep []).map Prod.snd

/-- Numeric priority rank (`priorityOrder = { critical: 0, high: 1, normal: 2, low: 3 }`). -/
def priorityOrder : Priority → Nat
  | .critical => 0
  | .high => 1
  | .normal => 2
  | .low => 3

/-- `a.priority || 'normal'` (a missing priority is treated as `normal`). -/
def itemPriority (item : QueueItem) : Priority :=
  item.priority.getD .normal

/-- The comparator passed to `queue.sort` in
`OfflineStorage.getPrioritizedQueue`. -/
def syncCompare (a b : QueueItem) : Int :=
  let priorityDiff : Int :=
    (priorityOrder (itemPriority a) : Int) - (priorityOrder (itemPriority b) : Int)
  if priorityDiff ≠ 0 then priorityDiff else a.timestamp - b.timestamp

/-- `OfflineStorage.getPrioritizedQueue`: a stable comparison sort of the
queue by `syncCompare`. -/
def getPrioritizedQueue (q : List QueueItem) : List QueueItem :=
  q.mergeSort (fun a b => syncCompare a b ≤ 0)

/-- `OfflineStorage.cleanupOldQueueItems` (default `hoursOld = 24`):
keep the items with `timestamp > now - 24*60*60*1000`. -/
def cleanupOldQueueItems (now : Int) (q : List QueueItem) : List QueueItem :=
  q.filter (fun item => now - 24 * 60 * 60 * 1000 < item.timestamp)

/-- `OfflineStorage.removeFromQueue`: drop the item with the given id. -/
def removeFromQueue (itemId : String) (q : List QueueItem) : List QueueItem :=
  q.filter (fun item => item.id ≠ itemId)

/-- `OfflineStorage.updateQueueItem` with a `retryCount` patch: spread the
patch over the first item found with this id (no-op when absent). -/
def updateQueueItemRetry (itemId : String) (newRetry : Nat) (q : List QueueItem) :
    List QueueItem :=
  match q with
  | [] => []
  | item :: rest =>
      if item.id = itemId then { item with retryCount := newRetry } :: rest
      else item :: updateQueueItemRetry itemId newRetry rest

/-- A cached collection row.  `id`, `created_at` and `status` are the fields
the conflict-resolution code reads (`status` only matters for sales); `value`
stands for the remaining business fields. -/
structure Rec where
  id : String
  created_at : Int
  status : String
  value : Int
deriving DecidableEq, Repr

/-- `CachedData<T>` in `offline.ts`. -/
structure CachedData where
  data : List Rec
  lastUpdated : Int
  version : Nat
deriving DecidableEq, Repr

/-- The sync-status blob (`setSyncStatus` / `getSyncStatus`). -/
structure SyncStatus where
  lastSync : Int
  isOnline : Bool
  pendingItems : Nat
deriving DecidableEq, Repr

/-- The `AsyncStorage` keys used by `OfflineStorage`, as one record.
`none` models an absent key. -/
structure Store where
  queue : List QueueItem
  productsCache : Option CachedData
  salesCache : Option CachedData
  sellersCache : Option CachedData
  categoriesCache : Option CachedData
  syncStatus : Option SyncStatus
deriving DecidableEq, Repr

/-- `OfflineStorage.getQueue` (missing key parses to `[]`). -/
def Store.getQueue (st : Store) : List QueueItem := st.queue

/-- `OfflineStorage.cacheProducts`. -/
def cacheProducts (now : Int) (products : List Rec) (st : Store) : Store :=
  { st with productsCache := some { data := products, lastUpdated := now, version := 1 } }

/-- `OfflineStorage.cacheSales`. -/
def cacheSales (now : Int) (sales : List Rec) (st : Store) : Store :=
  { st with salesCache := some { data := sales, lastUpdated := now, version := 1 } }

/-- `OfflineStorage.cacheSellers`. -/
def cacheSellers (now : Int) (sellers : List Rec) (st : Store) : Store :=
  { st with sellersCache := some { data := sellers, lastUpdated := now, version := 1 } }

/-- `OfflineStorage.cacheCategories`. -/
def cacheCategories (now : Int) (categories : List Rec) (st : Store) : Store :=
  { st with categoriesCache := some { data := categories, lastUpdated := now, version := 1 } }

/-- `OfflineStorage.setSyncStatus`. -/
def setSyncStatus (status : SyncStatus) (st : Store) : Store :=
  { st with syncStatus := some status }

/-- `SyncResult` in `sync.ts`. -/
structure SyncResult where
  success : Bool
  syncedItems : Nat
  failedItems : Nat
  errors : List String
deriving DecidableEq, Repr

/-- A remote write issued by `SyncService.processQueueItem`
(`ApiService.create` / `update` / `delete`). -/
structure RemoteCall where
  table : Table
  type : OpType
  data : Payload
deriving DecidableEq, Repr

/-- `SyncService.processQueueItem` as the remote call it issues.  With
`table` an enumerated type the `Unknown table` branch is unreachable; the
call itself succeeds or throws according to the failure oracle. -/
def processQueueItemCall (table : Table) (type : OpType) (data : Payload) : RemoteCall :=
  { table := table, type := type, data := data }

/-- State threaded through one run of `SyncService.syncOfflineQueue`'s loop:
the store plus the trace of remote calls attempted so far. -/
structure DrainState where
  store : Store
  calls : List RemoteCall
deriving Repr

/-- The body of the `for (const item of queue)` loop in
`SyncService.syncOfflineQueue`, for one snapshot item.  `fails item = true`
means the remote write for this item throws.  Accumulates
`(syncedItems, failedItems, errors)`. -/
def drainStep (fails : QueueItem → Bool) (acc : Nat × Nat × List String × DrainState)
    (item : QueueItem) : Nat × Nat × List String × DrainState :=
  let (synced, failed, errors, ds) := acc
  let call := processQueueItemCall item.table item.type item.data
  let ds := { ds with calls := ds.calls ++ [call] }
  if fails item then
    if shouldRetryItem item then
      (synced, failed, errors,
        { ds with store :=
            { ds.store with
              queue := updateQueueItemRetry item.id (item.retryCount + 1) ds.store.queue } })
    else
      (synced, failed + 1,
        errors ++ ["Failed to sync " ++ item.type.str ++ " " ++ item.table.str ++
          ": Unknown error"],
        ds)
  else
    (synced + 1, failed, errors,
      { ds with store := { ds.store with queue := removeFromQueue item.id ds.store.queue } })

/-- `SyncService.syncOfflineQueue`: clean up old items, deduplicate, take the
prioritized snapshot, then drain it item by item.  (The source also calls
`detectConflicts` before the loop, but only logs the result, so it has no
effect on state or result.)  Returns the `SyncResult`, the updated store and
the remote calls attempted. -/
def syncOfflineQueue (fails : QueueItem → Bool) (now : Int) (st : Store) :
    SyncResult × Store × List RemoteCall :=
  let st := { st with queue := cleanupOldQueueItems now st.queue }
  let st := { st with queue := deduplicateQueue st.queue }
  let snapshot := getPrioritizedQueue st.queue
  let (synced, failed, errors, ds) :=
    snapshot.foldl (drainStep fails) (0, 0, [], { store := st, calls := [] })
  ({ success := failed = 0, syncedItems := synced, failedItems := failed, errors := errors },
    ds.store, ds.calls)

/-- JavaScript `s.startsWith(p)`, via character-list prefix test. -/
def strStartsWith (s p : String) : Bool :=
  p.data.isPrefixOf s.data

/-- `new Map(list.map(r => [r.id, r])).get(id)`: when a `Map` is built from
entries, a later entry overwrites an earlier one with the same key, so lookup
returns the last matching record. -/
def recLookup (list : List Rec) (id : String) : Option Rec :=
  list.reverse.find? (fun r => r.id = id)

/-- The conflict list computed by
`SyncService.syncProductsWithConflictResolution`: server records whose
identity also exists locally with both sides modified after the cache's
`lastUpdated` stamp.  The source only logs this list; it does not affect the
cached result. -/
def productConflicts (cachedProducts : Option CachedData) (serverProducts : List Rec) :
    List (Rec × Rec) :=
  let localProducts := (cachedProducts.map CachedData.data).getD []
  let lastSync := (cachedProducts.map CachedData.lastUpdated).getD 0
  serverProducts.filterMap (fun serverProduct =>
    match recLookup localProducts serverProduct.id with
    | none => none
    | some localProduct =>
        if lastSync < serverProduct.created_at ∧ lastSync < localProduct.created_at then
          some (serverProduct, localProduct)
        else none)

/-- `SyncService.syncProductsWithConflictResolution`: after detecting (and
only logging) conflicts, the resolved list is `[...serverProducts]` — the
server copy wholesale — and it replaces the products cache. -/
def syncProductsWithConflictResolution (now : Int) (serverProducts : List Rec)
    (st : Store) : Store :=
  let _conflicts := productConflicts st.productsCache serverProducts
  let resolvedProducts := serverProducts
  cacheProducts now resolvedProducts st

/-- The conflict list computed by `SyncService.syncSalesWithConflictResolution`
(log-only, like the products one); local `temp_` sales are skipped. -/
def saleConflicts (cachedSales : Option CachedData) (serverSales : List Rec) :
    List (Rec × Rec) :=
  let localSales := (cachedSales.map CachedData.data).getD []
  let lastSync := (cachedSales.map CachedData.lastUpdated).getD 0
  serverSales.filterMap (fun serverSale =>
    match recLookup localSales serverSale.id with
    | none => none
    | some localSale =>
        if ¬ strStartsWith localSale.id "temp_" ∧
            lastSync < serverSale.created_at ∧ lastSync < localSale.created_at then
          some (serverSale, localSale)
        else none)

/-- `SyncService.syncSalesWithConflictResolution`: keep the server records
except those shadowed by a pending local `temp_` sale, then append the local
pending `temp_` sales, and replace the sales cache with the result. -/
def syncSalesWithConflictResolution (now : Int) (serverSales : List Rec)
    (st : Store) : Store :=
  let localSales := (st.salesCache.map CachedData.data).getD []
  let _conflicts := saleConflicts st.salesCache serverSales
  let resolvedSales := serverSales.filter (fun serverSale =>
    match recLookup localSales serverSale.id with
    | none => true
    | some localSale =>
        ¬ (localSale.status = "pending" ∧ strStartsWith localSale.id "temp_"))
  let pendingLocalSales := localSales.filter (fun sale =>
    strStartsWith sale.id "temp_" ∧ sale.status = "pending")
  cacheSales now (resolvedSales ++ pendingLocalSales) st

/-- The four pull fetches of `SyncService.syncFromServer`
(`ProductService.getAll`, `SaleService.getAll`, `SellerService.getAll`,
`ApiService.getAll('categories')`).  `.error msg` models a rejected fetch. -/
structure Fetches where
  products : Except String (List Rec)
  sales : Except String (List Rec)
  sellers : Except String (List Rec)
  categories : Except String (List Rec)

/-- `SyncService.syncFromServer`: four independent try/catch sections; a
failed fetch increments `failedItems` and records an error, a successful one
updates the corresponding cache and adds the list length to `syncedItems`. -/
def syncFromServer (now : Int) (f : Fetches) (st : Store) : SyncResult × Store :=
  let (s1, f1, e1, st) :=
    match f.products with
    | .ok products => (products.length, 0, [],
        syncProductsWithConflictResolution now products st)
    | .error msg => (0, 1, ["Failed to sync products: " ++ msg], st)
  let (s2, f2, e2, st) :=
    match f.sales with
    | .ok sales => (sales.length, 0, [],
        syncSalesWithConflictResolution now sales st)
    | .error msg => (0, 1, ["Failed to sync sales: " ++ msg], st)
  let (s3, f3, e3, st) :=
    match f.sellers with
    | .ok sellers => (sellers.length, 0, [], cacheSellers now sellers st)
    | .error msg => (0, 1, ["Failed to sync sellers: " ++ msg], st)
  let (s4, f4, e4, st) :=
    match f.categories with
    | .ok categories => (categories.length, 0, [], cacheCategories now categories st)
    | .error msg => (0, 1, ["Failed to sync categories: " ++ msg], st)
  let failed := f1 + f2 + f3 + f4
  ({ success := failed = 0, syncedItems := s1 + s2 + s3 + s4, failedItems := failed,
      errors := e1 ++ e2 ++ e3 ++ e4 }, st)

/-- `SyncService.performSync`: drain the queue, then pull from the server,
summing the two results.  Its outer try/catch returns a `SyncResult` on any
thrown error, so it never itself throws; with the local store reliable the
catch arm is unreachable and the happy path is total. -/
def performSync (fails : QueueItem → Bool) (now : Int) (f : Fetches) (st : Store) :
    SyncResult × Store × List RemoteCall :=
  let (queueResult, st, calls) := syncOfflineQueue fails now st
  let (cacheResult, st) := syncFromServer now f st
  let failedItems := queueResult.failedItems + cacheResult.failedItems
  ({ success := failedItems = 0,
      syncedItems := queueResult.syncedItems + cacheResult.syncedItems,
      failedItems := failedItems,
      errors := queueResult.errors ++ cacheResult.errors }, st, calls)

/-- Which of `SyncService.syncAll`'s three control-flow branches ran. -/
inductive SyncBranch where
  | alreadyInProgress
  | offline
  | ran
deriving DecidableEq, Repr

/-- The in-memory fields of `SyncService` plus the durable store.
`statusWrites` counts the `OfflineStorage.setSyncStatus` calls made by
`syncAll`, so that "updated exactly once" is observable. -/
structure ServiceState where
  isOnline : Bool
  syncInProgress : Bool
  store : Store
  statusWrites : Nat
deriving Repr

/-- `SyncService.syncAll`.  The guard branches return without touching any
state; otherwise `performSync` runs (it cannot throw), the sync status is
written exactly once, and the `finally` clears `syncInProgress`. -/
def syncAll (fails : QueueItem → Bool) (now : Int) (f : Fetches) (s : ServiceState) :
    SyncResult × ServiceState × List RemoteCall × SyncBranch :=
  if s.syncInProgress then
    ({ success := false, syncedItems := 0, failedItems := 0,
        errors := ["Sync already in progress"] }, s, [], .alreadyInProgress)
  else if ¬ s.isOnline then
    ({ success := false, syncedItems := 0, failedItems := 0,
        errors := ["Device is offline"] }, s, [], .offline)
  else
    let s := { s with syncInProgress := true }
    let (result, st, calls) := performSync fails now f s.store
    let st := setSyncStatus
      { lastSync := now, isOnline := true, pendingItems := result.failedItems } st
    let s :=
      { s with
        store := st
        statusWrites := s.statusWrites + 1
        syncInProgress := false }
    (result, s, calls, .ran)

/-- `OfflineStorage.addToQueue`: stamp the item with a fresh id, the current
time, `retryCount 0` and a defaulted priority, then append it to the queue.
The generated id `` `${table}_${type}_${Date.now()}_${Math.random()}` `` is
modelled by a caller-supplied nonce. -/
def addToQueue (table : Table) (type : OpType) (data : Payload)
    (priority : Option Priority) (now : Int) (nonce : String) (st : Store) : Store :=
  let queueItem : QueueItem :=
    { id := table.str ++ "_" ++ type.str ++ "_" ++ nonce,
      type := type, table := table, data := data,
      timestamp := now, retryCount := 0,
      priority := some (priority.getD .normal) }
  { st with queue := st.queue ++ [queueItem] }

/-- `SyncService.queueOperation`: when online, execute immediately and only
enqueue on failure (rethrowing); when offline, enqueue without attempting.
Returns whether the offline (enqueue-without-attempting) branch was taken,
the remote calls attempted, and the updated state. -/
def queueOperation (table : Table) (type : OpType) (data : Payload)
    (remoteFails : Bool) (now : Int) (nonce : String) (s : ServiceState) :
    Bool × List RemoteCall × ServiceState :=
  if s.isOnline then
    let call := processQueueItemCall table type data
    if remoteFails then
      (false, [call],
        { s with store := addToQueue table type data none now nonce s.store })
    else
      (false, [call], s)
  else
    (true, [], { s with store := addToQueue table type data none now nonce s.store })

/-- `OfflineStorage.getFailedItems`: the queue items past the retry bound. -/
def getFailedItems (q : List QueueItem) : List QueueItem :=
  q.filter (fun item => ¬ shouldRetryItem item)

/-- `SyncService.retryFailedOperations`: re-attempt every exhausted item,
removing the ones whose remote write now succeeds. -/
def retryFailedOperations (fails : QueueItem → Bool) (st : Store) :
    SyncResult × Store × List RemoteCall :=
  let items := getFailedItems st.queue
  let (synced, failed, errors, ds) := items.foldl
    (fun acc item =>
      let (synced, failed, errors, ds) := acc
      let call := processQueueItemCall item.table item.type item.data
      let ds := { ds with calls := ds.calls ++ [call] }
      if fails item then
        (synced, failed + 1,
          errors ++ ["Failed to retry " ++ item.type.str ++ " " ++ item.table.str ++
            ": Unknown error"], ds)
      else
        (synced + 1, failed, errors,
          { ds with store := { ds.store with queue := removeFromQueue item.id ds.store.queue } }))
    (0, 0, ([] : List String), ({ store := st, calls := [] } : DrainState))
  ({ success := failed = 0, syncedItems := synced, failedItems := failed, errors := errors },
    ds.store, ds.calls)

/-- `OfflineStorage.clearAllCache`: remove every cache key and the sync
status. -/
def clearAllCache (st : Store) : Store :=
  { st with
    productsCache := none
    salesCache := none
    sellersCache := none
    categoriesCache := none
    syncStatus := none }

/-- `OfflineStorage.clearQueue`. -/
def clearQueue (st : Store) : Store :=
  { st with queue := [] }

/-- `SyncService.clearOfflineData` = `clearAllCache` then `clearQueue`. -/
def clearOfflineData (st : Store) : Store :=
  clearQueue (clearAllCache st)

/-- The in-memory statics of `SyncService` at module load:
`isOnline = true` ("Assume online by default"), `syncInProgress = false`. -/
def initialService (st : Store) : ServiceState :=
  { isOnline := true, syncInProgress := false, store := st, statusWrites := 0 }

/-- One public `SyncService` entry point, with the external inputs (failure
oracle, clock, fetches, NetInfo answer, nonce) as constructor arguments. -/
inductive SOp where
  | initializeOp
  | checkOnlineStatusOp (netConnected netReachable : Bool)
  | syncAllOp (fails : QueueItem → Bool) (now : Int) (f : Fetches)
  | forceSyncOp (fails : QueueItem → Bool) (now : Int) (f : Fetches)
  | queueOperationOp (table : Table) (type : OpType) (data : Payload)
      (remoteFails : Bool) (now : Int) (nonce : String)
  | getCachedDataOp (table : Table)
  | getSyncStatusOp
  | clearOfflineDataOp
  | getPendingOperationsCountOp
  | retryFailedOperationsOp (fails : QueueItem → Bool)

/-- The state transition of each `SyncService` entry point.  `initialize`
assigns `isOnline = true`; `checkOnlineStatus` returns the NetInfo answer
without assigning it; no entry point assigns `isOnline = false`. -/
def serviceStep (s : ServiceState) : SOp → ServiceState
  | .initializeOp => { s with isOnline := true }
  | .checkOnlineStatusOp _ _ => s
  | .syncAllOp fails now f => (syncAll fails now f s).2.1
  | .forceSyncOp fails now f => (syncAll fails now f s).2.1
  | .queueOperationOp table type data remoteFails now nonce =>
      (queueOperation table type data remoteFails now nonce s).2.2
  | .getCachedDataOp _ => s
  | .getSyncStatusOp => s
  | .clearOfflineDataOp => { s with store := clearOfflineData s.store }
  | .getPendingOperationsCountOp => s
  | .retryFailedOperationsOp fails =>
      { s with store := (retryFailedOperations fails s.store).2.1 }

/-- Run a sequence of entry points from a state. -/
def runOps (s : ServiceState) (ops : List SOp) : ServiceState :=
  ops.foldl serviceStep s

/-- Bool test "this item has deduplication key `k`". -/
def hasKey (k : String) (i : QueueItem) : Bool :=
  dedupKey i = k

/-- The per-key accumulator of `deduplicateQueue`'s reverse scan: the first
item of a key is kept, later (earlier-indexed) items replace it only on a
strictly greater timestamp. -/
def pickOpt (acc : Option QueueItem) (i : QueueItem) : Option QueueItem :=
  match acc with
  | none => some i
  | some e => if e.timestamp < i.timestamp then some i else some e

theorem hasKey_iff {k : String} {i : QueueItem} : hasKey k i = true ↔ dedupKey i = k := by
  simp [hasKey]

theorem mapGet_mapSet_self (m : JsMap) (k : String) (v : QueueItem) :
    mapGet (mapSet m k v) k = some v := by
  induction m with
  | nil => simp [mapSet, mapGet]
  | cons e rest ih =>
      obtain ⟨k', v'⟩ := e
      by_cases h : k' = k <;> simp [mapSet, mapGet, h, ih]

theorem mapGet_mapSet_ne (m : JsMap) {k k' : String} (h : k ≠ k') (v : QueueItem) :
    mapGet (mapSet m k v) k' = mapGet m k' := by
  induction m with
  | nil => simp [mapSet, mapGet, h]
  | cons e rest ih =>
      obtain ⟨k₀, v₀⟩ := e
      by_cases h0 : k₀ = k
      · subst h0
        simp [mapSet, mapGet, h]
      · simp [mapSet, mapGet, h0, ih]

/-- The defining equation of `dedupStep` with the `let` inlined. -/
theorem dedupStep_eq (m : JsMap) (i : QueueItem) :
    dedupStep m i =
      match mapGet m (dedupKey i) with
      | none => mapSet m (dedupKey i) i
      | some existing =>
          if existing.timestamp < i.timestamp then mapSet m (dedupKey i) i else m := rfl

theorem mapGet_dedupStep (m : JsMap) (i : QueueItem) (k : String) :
    mapGet (dedupStep m i) k =
      if dedupKey i = k then pickOpt (mapGet m (dedupKey i)) i else mapGet m k := by
  rw [dedupStep_eq]
  cases h : mapGet m (dedupKey i) with
  | none =>
      by_cases hk : dedupKey i = k
      · subst hk; simp [pickOpt, mapGet_mapSet_self]
      · simp [pickOpt, hk, mapGet_mapSet_ne _ hk]
  | some e =>
      by_cases ht : e.timestamp < i.timestamp
      · by_cases hk : dedupKey i = k
        · subst hk; simp [pickOpt, ht, mapGet_mapSet_self]
        · simp [pickOpt, ht, hk, mapGet_mapSet_ne _ hk]
      · by_cases hk : dedupKey i = k
        · subst hk; simp [pickOpt, ht, h]
        · simp [pickOpt, ht, hk]

theorem mapGet_foldl_dedupStep (l : List QueueItem) (m : JsMap) (k : String) :
    mapGet (l.foldl dedupStep m) k =
      (l.filter (hasKey k)).foldl pickOpt (mapGet m k) := by
  induction l generalizing m with
  | nil => simp
  | cons i rest ih =>
      simp only [List.foldl_cons]
      rw [ih]
      by_cases hk : dedupKey i = k
      · rw [List.filter_cons_of_pos (hasKey_iff.mpr hk)]
        simp only [List.foldl_cons]
        rw [mapGet_dedupStep]
        simp [hk]
      · rw [List.filter_cons_of_neg (by simp [hasKey_iff, hk])]
        rw [mapGet_dedupStep]
        simp [hk]

/-- Invariant of the `seen` map: entry keys are pairwise distinct and each
entry stores an item whose deduplication key is the entry key. -/
def KeysOk (m : JsMap) : Prop :=
  m.Pairwise (fun e e' => e.1 ≠ e'.1) ∧ ∀ e ∈ m, dedupKey e.2 = e.1

theorem keysOk_nil : KeysOk [] := by
  constructor <;> simp

theorem mapSet_mem_cases (m : JsMap) (k : String) (v : QueueItem) (e : String × QueueItem)
    (he : e ∈ mapSet m k v) : e ∈ m ∨ e = (k, v) := by
  induction m with
  | nil => simp [mapSet] at he; simp [he]
  | cons e₀ rest ih =>
      obtain ⟨k₀, v₀⟩ := e₀
      by_cases h0 : k₀ = k
      · simp only [mapSet, h0, if_true] at he
        rcases List.mem_cons.mp he with h | h
        · right; exact h
        · left; exact List.mem_cons_of_mem _ h
      · simp only [mapSet, h0, if_false] at he
        rcases List.mem_cons.mp he with h | h
        · left; simp [h]
        · rcases ih h with h' | h'
          · left; exact List.mem_cons_of_mem _ h'
          · right; exact h'

theorem keysOk_mapSet {m : JsMap} (h : KeysOk m) {k : String} {v : QueueItem}
    (hv : dedupKey v = k) : KeysOk (mapSet m k v) := by
  induction m with
  | nil =>
      constructor <;> simp [mapSet, hv]
  | cons e rest ih =>
      obtain ⟨k₀, v₀⟩ := e
      obtain ⟨hp, hkeys⟩ := h
      rw [List.pairwise_cons] at hp
      have hrest : KeysOk rest := ⟨hp.2, fun e he => hkeys e (List.mem_cons_of_mem _ he)⟩
      by_cases h0 : k₀ = k
      · subst h0
        simp only [mapSet, if_pos rfl]
        constructor
        · exact List.pairwise_cons.mpr ⟨fun e' he' => hp.1 e' he', hp.2⟩
        · intro e he
          rcases List.mem_cons.mp he with h | h
          · subst h; exact hv
          · exact hkeys e (List.mem_cons_of_mem _ h)
      · simp only [mapSet, h0, if_false]
        obtain ⟨ih1, ih2⟩ := ih hrest
        constructor
        · refine List.pairwise_cons.mpr ⟨fun e' he' => ?_, ih1⟩
          rcases mapSet_mem_cases rest k v e' he' with hmem | heq
          · exact hp.1 e' hmem
          · subst heq; exact h0
        · intro e he
          rcases List.mem_cons.mp he with hh | hh
          · subst hh; exact hkeys (k₀, v₀) (List.mem_cons_self _ _)
          · exact ih2 e hh

theorem keysOk_dedupStep {m : JsMap} (h : KeysOk m) (i : QueueItem) :
    KeysOk (dedupStep m i) := by
  rw [dedupStep_eq]
  cases mapGet m (dedupKey i) with
  | none => exact keysOk_mapSet h rfl
  | some e =>
      by_cases ht : e.timestamp < i.timestamp
      · simpa [ht] using keysOk_mapSet h rfl
      · simpa [ht] using h

theorem keysOk_foldl_dedupStep (l : List QueueItem) {m : JsMap} (h : KeysOk m) :
    KeysOk (l.foldl dedupStep m) := by
  induction l generalizing m with
  | nil => simpa using h
  | cons i rest ih => exact ih (keysOk_dedupStep h i)

/-- With the map invariant, filtering the value list of the map by a key
yields exactly the entry stored at that key (if any). -/
theorem filter_values_eq {m : JsMap} (h : KeysOk m) (k : String) :
    (m.map Prod.snd).filter (hasKey k) = (mapGet m k).toList := by
  induction m with
  | nil => simp [mapGet]
  | cons e rest ih =>
      obtain ⟨k₀, v₀⟩ := e
      obtain ⟨hp, hkeys⟩ := h
      rw [List.pairwise_cons] at hp
      have hrest : KeysOk rest := ⟨hp.2, fun e he => hkeys e (List.mem_cons_of_mem _ he)⟩
      have hv₀ : dedupKey v₀ = k₀ := hkeys (k₀, v₀) (List.mem_cons_self _ _)
      by_cases h0 : k₀ = k
      · subst h0
        have hrest_nil : (rest.map Prod.snd).filter (hasKey k₀) = [] := by
          rw [List.filter_eq_nil_iff]
          intro a ha
          obtain ⟨e, he, rfl⟩ := List.mem_map.mp ha
          have hek : dedupKey e.2 = e.1 := hkeys e (List.mem_cons_of_mem _ he)
          have hne : k₀ ≠ e.1 := hp.1 e he
          simp only [hasKey, decide_eq_true_eq]
          rw [hek]
          exact fun hc => hne hc.symm
        simp only [List.map_cons, mapGet, if_pos rfl]
        rw [List.filter_cons_of_pos (hasKey_iff.mpr hv₀), hrest_nil]
        simp
      · simp only [List.map_cons, mapGet, h0, if_false]
        rw [List.filter_cons_of_neg (by simp [hasKey_iff, hv₀, h0]), ih hrest]

/-- Filtering the deduplicated queue by a key computes the per-key survivor
scan over the reversed filtered input. -/
theorem dedup_filter_key (q : List QueueItem) (k : String) :
    (deduplicateQueue q).filter (hasKey k) =
      ((q.filter (hasKey k)).reverse.foldl pickOpt none).toList := by
  unfold deduplicateQueue
  rw [filter_values_eq (keysOk_foldl_dedupStep _ keysOk_nil) k,
    mapGet_foldl_dedupStep, List.filter_reverse]
  simp [mapGet]

theorem pickOpt_isSome (acc : Option QueueItem) (i : QueueItem) :
    (pickOpt acc i).isSome := by
  cases acc with
  | none => simp [pickOpt]
  | some e => by_cases ht : e.timestamp < i.timestamp <;> simp [pickOpt, ht]

theorem foldl_pickOpt_isSome_of_isSome (l : List QueueItem) {acc : Option QueueItem}
    (h : acc.isSome) : (l.foldl pickOpt acc).isSome := by
  induction l generalizing acc with
  | nil => simpa using h
  | cons i rest ih => exact ih (pickOpt_isSome acc i)

theorem foldl_pickOpt_isSome (l : List QueueItem) (acc : Option QueueItem)
    (h : l ≠ []) : (l.foldl pickOpt acc).isSome := by
  cases l with
  | nil => exact absurd rfl h
  | cons i rest =>
      simp only [List.foldl_cons]
      exact foldl_pickOpt_isSome_of_isSome rest (pickOpt_isSome acc i)

theorem mapSet_of_get_none {m : JsMap} {k : String} (h : mapGet m k = none)
    (v : QueueItem) : mapSet m k v = m ++ [(k, v)] := by
  induction m with
  | nil => simp [mapSet]
  | cons e rest ih =>
      obtain ⟨k₀, v₀⟩ := e
      by_cases h0 : k₀ = k
      · subst h0; simp [mapGet] at h
      · simp only [mapGet, h0, if_false] at h
        simp [mapSet, h0, ih h]

theorem mapGet_append_none {m m' : JsMap} {k : String} (h : mapGet m k = none) :
    mapGet (m ++ m') k = mapGet m' k := by
  induction m with
  | nil => simp
  | cons e rest ih =>
      obtain ⟨k₀, v₀⟩ := e
      by_cases h0 : k₀ = k
      · subst h0; simp [mapGet] at h
      · simp only [mapGet, h0, if_false] at h
        simpa [mapGet, h0] using ih h

/-- When every incoming item's key is fresh (absent from the map and
pairwise distinct), the reverse scan of `deduplicateQueue` just appends an
entry per item. -/
theorem foldl_dedupStep_fresh (l : List QueueItem) (m : JsMap)
    (hl : l.Pairwise (fun a b => dedupKey a ≠ dedupKey b))
    (hm : ∀ i ∈ l, mapGet m (dedupKey i) = none) :
    l.foldl dedupStep m = m ++ l.map (fun i => (dedupKey i, i)) := by
  induction l generalizing m with
  | nil => simp
  | cons i rest ih =>
      rw [List.pairwise_cons] at hl
      have h1 : mapGet m (dedupKey i) = none := hm i (List.mem_cons_self _ _)
      have hstep : dedupStep m i = m ++ [(dedupKey i, i)] := by
        rw [dedupStep_eq, h1]
        exact mapSet_of_get_none h1 i
      have hfresh : ∀ j ∈ rest, mapGet (m ++ [(dedupKey i, i)]) (dedupKey j) = none := by
        intro j hj
        rw [mapGet_append_none (hm j (List.mem_cons_of_mem _ hj))]
        simp [mapGet, hl.1 j hj]
      simp only [List.foldl_cons]
      rw [hstep, ih (m ++ [(dedupKey i, i)]) hl.2 hfresh]
      simp

/-- On a queue whose items have pairwise distinct deduplication keys,
`deduplicateQueue` keeps every item but reverses the list. -/
theorem deduplicateQueue_distinct_keys (q : List QueueItem)
    (h : q.Pairwise (fun a b => dedupKey a ≠ dedupKey b)) :
    deduplicateQueue q = q.reverse := by
  unfold deduplicateQueue
  rw [foldl_dedupStep_fresh q.reverse []
    (List.pairwise_reverse.mpr (h.imp fun hab => fun hc => hab hc.symm))
    (fun i _ => rfl)]
  simp only [List.nil_append, List.map_map]
  have hcomp : (Prod.snd ∘ fun i : QueueItem => (dedupKey i, i)) = id := rfl
  rw [hcomp, List.map_id]

/-- The priority rank as an integer, for comparator arithmetic. -/
def prioNum (i : QueueItem) : Int :=
  (priorityOrder (itemPriority i) : Int)

/-- The non-strict order the comparator of `getPrioritizedQueue` induces:
first by priority rank (critical lowest rank first), then by `timestamp`
ascending. -/
def prioritizedLE (a b : QueueItem) : Prop :=
  prioNum a < prioNum b ∨ (prioNum a = prioNum b ∧ a.timestamp ≤ b.timestamp)

theorem syncCompare_le_iff (a b : QueueItem) :
    syncCompare a b ≤ 0 ↔ prioritizedLE a b := by
  simp only [syncCompare, prioritizedLE, prioNum]
  split
  · next h => omega
  · next h => omega

theorem prioritizedLE_trans {a b c : QueueItem} (h1 : prioritizedLE a b)
    (h2 : prioritizedLE b c) : prioritizedLE a c := by
  simp only [prioritizedLE] at h1 h2 ⊢
  omega

theorem prioritizedLE_total (a b : QueueItem) :
    prioritizedLE a b ∨ prioritizedLE b a := by
  simp only [prioritizedLE]
  omega

theorem getPrioritizedQueue_sorted (q : List QueueItem) :
    (getPrioritizedQueue q).Pairwise prioritizedLE := by
  unfold getPrioritizedQueue
  have hs := @List.sorted_mergeSort QueueItem
    (fun a b : QueueItem => decide (syncCompare a b ≤ 0))
    (fun a b c hab hbc => by
      simp only [decide_eq_true_eq] at hab hbc ⊢
      exact (syncCompare_le_iff a c).mpr
        (prioritizedLE_trans ((syncCompare_le_iff a b).mp hab)
          ((syncCompare_le_iff b c).mp hbc)))
    (fun a b => by
      simp only [Bool.or_eq_true, decide_eq_true_eq, syncCompare_le_iff]
      exact prioritizedLE_total a b)
    q
  exact hs.imp fun h => (syncCompare_le_iff _ _).mp (by simpa using h)

/-! ### Concrete fixtures used by witnesses and counterexamples -/

/-- A store with every `AsyncStorage` key absent. -/
def emptyStore : Store :=
  { queue := [], productsCache := none, salesCache := none,
    sellersCache := none, categoriesCache := none, syncStatus := none }

/-- An `update` on product identity `"A"`, enqueued at time 100. -/
def exUpdateX : QueueItem :=
  { id := "q1", type := .update, table := .products,
    data := { id := some "A", name := none, extra := 1 },
    timestamp := 100, retryCount := 0, priority := some .normal }

/-- A later `update` on the same product identity `"A"`, enqueued at 200. -/
def exUpdateY : QueueItem :=
  { id := "q2", type := .update, table := .products,
    data := { id := some "A", name := none, extra := 2 },
    timestamp := 200, retryCount := 0, priority := some .normal }

/-- An `update` on a different product identity `"B"`. -/
def exUpdateZ : QueueItem :=
  { id := "q3", type := .update, table := .products,
    data := { id := some "B", name := none, extra := 3 },
    timestamp := 150, retryCount := 0, priority := some .normal }

/-- Low-priority item enqueued first. -/
def exLow : QueueItem :=
  { id := "L", type := .update, table := .products,
    data := { id := some "A", name := none, extra := 0 },
    timestamp := 1, retryCount := 0, priority := some .low }

/-- Critical-priority item enqueued second. -/
def exCritical : QueueItem :=
  { id := "C", type := .create, table := .sales,
    data := { id := some "S", name := none, extra := 0 },
    timestamp := 2, retryCount := 0, priority := some .critical }

/-- Normal-priority item enqueued third. -/
def exNormal : QueueItem :=
  { id := "N", type := .update, table := .sellers,
    data := { id := some "V", name := none, extra := 0 },
    timestamp := 3, retryCount := 0, priority := some .normal }

/-- A queued mutation whose payload has neither an `id` nor a `name`. -/
def exNoKeyA : QueueItem :=
  { id := "n1", type := .create, table := .products,
    data := { id := none, name := none, extra := 1 },
    timestamp := 10, retryCount := 0, priority := some .normal }

/-- A distinct queued mutation, same table, also without `id`/`name`. -/
def exNoKeyB : QueueItem :=
  { id := "n2", type := .create, table := .products,
    data := { id := none, name := none, extra := 2 },
    timestamp := 20, retryCount := 0, priority := some .normal }

/-! ### Claims -/

/-- **C5**: For every queue whose items addressing a given (table, identity)
are exactly two updates — `update(A, x)` enqueued before `update(A, y)`, so
`x.timestamp ≤ y.timestamp` — running `deduplicate()` leaves exactly one
queued item for that identity, namely the most recent one by enqueue
timestamp, `update(A, y)`. -/
theorem c5_deduplicate_keeps_latest_update (q : List QueueItem) (x y : QueueItem)
    (hfil : q.filter (hasKey (dedupKey y)) = [x, y])
    (hxu : x.type = .update) (hyu : y.type = .update)
    (hts : x.timestamp ≤ y.timestamp) :
    (deduplicateQueue q).filter (hasKey (dedupKey y)) = [y] := by
  rw [dedup_filter_key, hfil]
  simp only [List.reverse_cons, List.reverse_nil, List.nil_append,
    List.singleton_append, List.foldl_cons, List.foldl_nil]
  simp [pickOpt, not_lt.mpr hts]

/-- Witness for `c5_deduplicate_keeps_latest_update` at the concrete queue
`[exUpdateX, exUpdateZ, exUpdateY]`. -/
theorem c5_deduplicate_keeps_latest_update_witness :
    ([exUpdateX, exUpdateZ, exUpdateY].filter (hasKey (dedupKey exUpdateY)) =
        [exUpdateX, exUpdateY] ∧
      exUpdateX.timestamp ≤ exUpdateY.timestamp) ∧
    (deduplicateQueue [exUpdateX, exUpdateZ, exUpdateY]).filter
      (hasKey (dedupKey exUpdateY)) = [exUpdateY] :=
  ⟨⟨by decide, by decide⟩,
    c5_deduplicate_keeps_latest_update [exUpdateX, exUpdateZ, exUpdateY]
      exUpdateX exUpdateY (by decide) (by decide) (by decide) (by decide)⟩

/-- **C6** (counterexample): `deduplicate()` does **not** preserve the
relative order of surviving items.  `exUpdateX` (key `products_A`) precedes
`exUpdateZ` (key `products_B`) in the queue; both survive deduplication, but
the stored queue afterwards is `[exUpdateZ, exUpdateX]` — the order is
reversed. -/
theorem c6_counterexample :
    dedupKey exUpdateX ≠ dedupKey exUpdateZ ∧
    deduplicateQueue [exUpdateX, exUpdateZ] = [exUpdateZ, exUpdateX] := by
  decide

/-- **C6** (amended): `deduplicate()` reverses the relative order of the
surviving items: on any queue whose items have pairwise distinct
(table, identity) deduplication keys — so that every item survives — the
stored queue after `deduplicate()` is exactly the reverse of the original
queue. -/
theorem c6_deduplicate_reverses_survivors (q : List QueueItem)
    (h : q.Pairwise (fun a b => dedupKey a ≠ dedupKey b)) :
    deduplicateQueue q = q.reverse :=
  deduplicateQueue_distinct_keys q h

/-- Witness for `c6_deduplicate_reverses_survivors` at the concrete
two-item queue. -/
theorem c6_deduplicate_reverses_survivors_witness :
    ([exUpdateX, exUpdateZ].Pairwise (fun a b => dedupKey a ≠ dedupKey b)) ∧
    deduplicateQueue [exUpdateX, exUpdateZ] = [exUpdateX, exUpdateZ].reverse :=
  ⟨by decide, c6_deduplicate_reverses_survivors [exUpdateX, exUpdateZ] (by decide)⟩

unseal List.merge List.mergeSort in
/-- **C7**: `getPrioritizedQueue` returns a permutation of the queue that is
sorted first by priority (critical → high → normal → low, a missing priority
counting as normal) and then by enqueue timestamp ascending; in particular,
items of priority {low, critical, normal} enqueued in that order are yielded
as {critical, normal, low}. -/
theorem c7_prioritized_order (q : List QueueItem) :
    (getPrioritizedQueue q).Perm q ∧
    (getPrioritizedQueue q).Pairwise prioritizedLE ∧
    getPrioritizedQueue [exLow, exCritical, exNormal] =
      [exCritical, exNormal, exLow] :=
  ⟨List.mergeSort_perm q _, getPrioritizedQueue_sorted q, by decide⟩

/-- **C9**: deduplication identity is keyed on the payload's `id`, falling
back to `name`, falling back to `"unknown"`: two distinct queued items on
the same table whose payloads lack both fields collide on the key
`<table>_unknown`, so `deduplicate()` keeps exactly one item for that key
and at most one of the two survives, even though they are distinct logical
mutations. -/
theorem c9_unknown_key_collision (q : List QueueItem) (a b : QueueItem)
    (ha : a ∈ q) (hb : b ∈ q) (hne : a ≠ b) (htab : a.table = b.table)
    (haid : a.data.id = none) (haname : a.data.name = none)
    (hbid : b.data.id = none) (hbname : b.data.name = none) :
    dedupKey a = a.table.str ++ "_" ++ "unknown" ∧
    ((deduplicateQueue q).filter (hasKey (dedupKey a))).length = 1 ∧
    ¬ (a ∈ deduplicateQueue q ∧ b ∈ deduplicateQueue q) := by
  have hkeya : dedupKey a = a.table.str ++ "_" ++ "unknown" := by
    simp [dedupKey, jsOrStr, haid, haname]
  have hkey : dedupKey b = dedupKey a := by
    simp [dedupKey, jsOrStr, haid, haname, hbid, hbname, htab]
  have hfa : hasKey (dedupKey a) a = true := hasKey_iff.mpr rfl
  have hfb : hasKey (dedupKey a) b = true := hasKey_iff.mpr hkey
  have hnonempty : (q.filter (hasKey (dedupKey a))).reverse ≠ [] := by
    intro hnil
    rw [List.reverse_eq_nil_iff] at hnil
    have := List.mem_filter.mpr ⟨ha, hfa⟩
    rw [hnil] at this
    exact absurd this (List.not_mem_nil a)
  obtain ⟨s, hs⟩ := Option.isSome_iff_exists.mp
    (foldl_pickOpt_isSome _ none hnonempty)
  have hfilter : (deduplicateQueue q).filter (hasKey (dedupKey a)) = [s] := by
    rw [dedup_filter_key, hs]
    rfl
  refine ⟨hkeya, by rw [hfilter]; rfl, ?_⟩
  rintro ⟨hain, hbin⟩
  have h1 : a ∈ [s] := hfilter ▸ List.mem_filter.mpr ⟨hain, hfa⟩
  have h2 : b ∈ [s] := hfilter ▸ List.mem_filter.mpr ⟨hbin, hfb⟩
  simp only [List.mem_singleton] at h1 h2
  exact hne (h1.trans h2.symm)

/-- Witness for `c9_unknown_key_collision` at the concrete queue
`[exNoKeyA, exNoKeyB]`. -/
theorem c9_unknown_key_collision_witness :
    (exNoKeyA ∈ [exNoKeyA, exNoKeyB] ∧ exNoKeyA ≠ exNoKeyB) ∧
    (((deduplicateQueue [exNoKeyA, exNoKeyB]).filter
        (hasKey (dedupKey exNoKeyA))).length = 1 ∧
      ¬ (exNoKeyA ∈ deduplicateQueue [exNoKeyA, exNoKeyB] ∧
          exNoKeyB ∈ deduplicateQueue [exNoKeyA, exNoKeyB])) :=
  ⟨⟨by decide, by decide⟩,
    (c9_unknown_key_collision [exNoKeyA, exNoKeyB] exNoKeyA exNoKeyB
      (by decide) (by decide) (by decide) (by decide) (by decide) (by decide)
      (by decide) (by decide)).2⟩

/-- A queue item that will fail every drain attempt in the C1 scenario. -/
def exRetryItem : QueueItem :=
  { id := "q1", type := .update, table := .products,
    data := { id := some "A", name := none, extra := 0 },
    timestamp := 100, retryCount := 0, priority := some .normal }

/-- A store holding only `exRetryItem`. -/
def exRetryStore : Store := { emptyStore with queue := [exRetryItem] }

/-- Iterate the queue drain (`syncOfflineQueue` with an all-failing remote)
`n` times at time 1000, threading the store. -/
def drainIter : Nat → Store → Store
  | 0, st => st
  | n + 1, st => drainIter n (syncOfflineQueue (fun _ => true) 1000 st).2.1

unseal List.merge List.mergeSort in
/-- **C1** (counterexample): after three failing drains `exRetryItem` has
`retryCount = MAX_RETRY_COUNT = 3`; the fourth drain reports it in the
failed-item count (exhausted) — but the fifth drain *still* attempts it
against the remote interface (its remote call trace is nonempty), refuting
"after reaching the bound it is never attempted against the remote
interface again in any subsequent drain". -/
theorem c1_counterexample :
    (drainIter 3 exRetryStore).queue = [{ exRetryItem with retryCount := 3 }] ∧
    MAX_RETRY_COUNT = 3 ∧
    (syncOfflineQueue (fun _ => true) 1000 (drainIter 3 exRetryStore)).1.failedItems
      = 1 ∧
    (syncOfflineQueue (fun _ => true) 1000 (drainIter 4 exRetryStore)).2.2 =
      [processQueueItemCall exRetryItem.table exRetryItem.type exRetryItem.data] := by
  decide

/-- **C1** (amended): an item whose every drain attempt fails has its
`retryCount` incremented on each failing drain while below
`MAX_RETRY_COUNT = 3`; once the bound is reached the item is reported in the
drain's failed-item count — but it stays in the queue unchanged and is
re-attempted against the remote interface on every subsequent drain (until
the 24-hour age cleanup evicts it), rather than never being attempted
again. -/
theorem c1_amended_bounded_retry_reporting (st : Store) (item : QueueItem) (now : Int)
    (hq : st.queue = [item])
    (hfresh : now - 24 * 60 * 60 * 1000 < item.timestamp) :
    (syncOfflineQueue (fun _ => true) now st).2.2 =
      [processQueueItemCall item.table item.type item.data] ∧
    (item.retryCount < MAX_RETRY_COUNT →
      (syncOfflineQueue (fun _ => true) now st).2.1.queue =
        [{ item with retryCount := item.retryCount + 1 }] ∧
      (syncOfflineQueue (fun _ => true) now st).1.failedItems = 0) ∧
    (MAX_RETRY_COUNT ≤ item.retryCount →
      (syncOfflineQueue (fun _ => true) now st).2.1.queue = [item] ∧
      (syncOfflineQueue (fun _ => true) now st).1.failedItems = 1) := by
  have hclean : cleanupOldQueueItems now [item] = [item] := by
    simp only [cleanupOldQueueItems, List.filter_eq_self, List.mem_singleton,
      decide_eq_true_eq]
    intro i hi
    subst hi
    omega
  have hdedup : deduplicateQueue [item] = [item] := by
    simp [deduplicateQueue, dedupStep_eq, mapGet, mapSet]
  have hprio : getPrioritizedQueue [item] = [item] := by
    unfold getPrioritizedQueue
    exact List.mergeSort_singleton item
  by_cases hr : item.retryCount < MAX_RETRY_COUNT
  · have hsr : shouldRetryItem item = true := by
      simp [shouldRetryItem, MAX_RETRY_COUNT] at hr ⊢
      omega
    refine ⟨?_, fun _ => ⟨?_, ?_⟩, fun hge => absurd hr (by omega)⟩ <;>
      simp [syncOfflineQueue, hq, hclean, hdedup, hprio, drainStep, hsr,
        updateQueueItemRetry]
  · have hsr : shouldRetryItem item = false := by
      simp [shouldRetryItem, MAX_RETRY_COUNT] at hr ⊢
      omega
    refine ⟨?_, fun hlt => absurd hlt hr, fun _ => ⟨?_, ?_⟩⟩ <;>
      simp [syncOfflineQueue, hq, hclean, hdedup, hprio, drainStep, hsr]

/-- Witness for `c1_amended_bounded_retry_reporting` at `exRetryStore`. -/
theorem c1_amended_bounded_retry_reporting_witness :
    (exRetryStore.queue = [exRetryItem] ∧
      (1000 : Int) - 24 * 60 * 60 * 1000 < exRetryItem.timestamp) ∧
    ((syncOfflineQueue (fun _ => true) 1000 exRetryStore).2.2 =
      [processQueueItemCall exRetryItem.table exRetryItem.type exRetryItem.data] ∧
    (exRetryItem.retryCount < MAX_RETRY_COUNT →
      (syncOfflineQueue (fun _ => true) 1000 exRetryStore).2.1.queue =
        [{ exRetryItem with retryCount := exRetryItem.retryCount + 1 }] ∧
      (syncOfflineQueue (fun _ => true) 1000 exRetryStore).1.failedItems = 0) ∧
    (MAX_RETRY_COUNT ≤ exRetryItem.retryCount →
      (syncOfflineQueue (fun _ => true) 1000 exRetryStore).2.1.queue = [exRetryItem] ∧
      (syncOfflineQueue (fun _ => true) 1000 exRetryStore).1.failedItems = 1)) :=
  ⟨⟨by decide, by decide⟩,
    c1_amended_bounded_retry_reporting exRetryStore exRetryItem 1000
      (by decide) (by decide)⟩

/-- A locally-minted product (temporary identity, unconfirmed local create)
present only in the local products cache. -/
def exTempProduct : Rec := { id := "temp_1", created_at := 0, status := "", value := 7 }

/-- A store whose products cache holds only `exTempProduct`. -/
def exTempProductStore : Store :=
  { emptyStore with
    productsCache := some { data := [exTempProduct], lastUpdated := 0, version := 1 } }

/-- **C2** (counterexample): a cached product whose identity exists only as
an unconfirmed local create (`temp_1`, unknown to the server) is **dropped**
by the products pull — the merge replaces the products cache wholesale with
the server list, so the claim's "holds for every tracked table" fails at the
products table. -/
theorem c2_counterexample :
    exTempProduct ∈ ((exTempProductStore.productsCache.map CachedData.data).getD []) ∧
    strStartsWith exTempProduct.id "temp_" = true ∧
    exTempProduct ∉
      (((syncProductsWithConflictResolution 5 [] exTempProductStore).productsCache.map
        CachedData.data).getD []) := by
  decide

/-- **C2** (amended): the pending-create protection holds for the sales
table only: a locally cached sale with a `temp_` identity and `pending`
status survives the sales pull, while the products and sellers pulls replace
their caches wholesale with the server list, dropping any record (pending
local creates included) that the server does not return. -/
theorem c2_amended_pending_create_sales_only (now : Int) (server : List Rec)
    (st : Store) (sale : Rec)
    (hmem : sale ∈ (st.salesCache.map CachedData.data).getD [])
    (htemp : strStartsWith sale.id "temp_" = true)
    (hpending : sale.status = "pending") :
    sale ∈ ((syncSalesWithConflictResolution now server st).salesCache.map
      CachedData.data).getD [] ∧
    (syncProductsWithConflictResolution now server st).productsCache =
      some { data := server, lastUpdated := now, version := 1 } ∧
    (cacheSellers now server st).sellersCache =
      some { data := server, lastUpdated := now, version := 1 } := by
  refine ⟨?_, rfl, rfl⟩
  have hpend : sale ∈ ((st.salesCache.map CachedData.data).getD []).filter
      (fun s => strStartsWith s.id "temp_" ∧ s.status = "pending") :=
    List.mem_filter.mpr ⟨hmem, by simp [htemp, hpending]⟩
  simp only [syncSalesWithConflictResolution, cacheSales, Option.map_some,
    Option.getD_some]
  exact List.mem_append.mpr (Or.inr hpend)

/-- A pending local sale with a temporary identity. -/
def exTempSale : Rec :=
  { id := "temp_9", created_at := 0, status := "pending", value := 3 }

/-- A store whose sales cache holds only `exTempSale`. -/
def exTempSaleStore : Store :=
  { emptyStore with
    salesCache := some { data := [exTempSale], lastUpdated := 0, version := 1 } }

/-- Witness for `c2_amended_pending_create_sales_only`: the pending local
sale `temp_9` survives a pull returning no sales. -/
theorem c2_amended_pending_create_sales_only_witness :
    (exTempSale ∈ (exTempSaleStore.salesCache.map CachedData.data).getD [] ∧
      strStartsWith exTempSale.id "temp_" = true ∧ exTempSale.status = "pending") ∧
    exTempSale ∈
      ((syncSalesWithConflictResolution 5 [] exTempSaleStore).salesCache.map
        CachedData.data).getD [] :=
  ⟨⟨by decide, by decide, by decide⟩,
    (c2_amended_pending_create_sales_only 5 [] exTempSaleStore exTempSale
      (by decide) (by decide) (by decide)).1⟩

/-- An unattempted pending delete (retryCount 0) for product `p1`. -/
def exPendingDelete : QueueItem :=
  { id := "d1", type := .delete, table := .products,
    data := { id := some "p1", name := none, extra := 0 },
    timestamp := 50, retryCount := 0, priority := some .normal }

/-- The server-side record with the same identity `p1`. -/
def exServerP1 : Rec := { id := "p1", created_at := 10, status := "", value := 1 }

/-- A store whose queue holds only the pending delete. -/
def exPendingDeleteStore : Store := { emptyStore with queue := [exPendingDelete] }

/-- The pull fetches in the C3 scenario: the server still returns `p1`. -/
def exC3Fetches : Fetches :=
  { products := .ok [exServerP1], sales := .ok [], sellers := .ok [],
    categories := .ok [] }

/-- **C3** (counterexample): with an unattempted pending delete for `p1`
queued (`retryCount = 0`), a pull whose server data still contains `p1`
**does** reinsert `p1` into the products cache — the pull never consults the
queue. -/
theorem c3_counterexample :
    exPendingDelete ∈ exPendingDeleteStore.queue ∧
    exPendingDelete.type = OpType.delete ∧
    exPendingDelete.retryCount = 0 ∧
    exPendingDelete.data.id = some exServerP1.id ∧
    exServerP1 ∈ (((syncFromServer 100 exC3Fetches exPendingDeleteStore).2.productsCache.map
      CachedData.data).getD []) := by
  decide

/-- **C3** (amended): the pull step ignores the pending-delete queue
entirely: every product identity the server returns is written to the
products cache regardless of the queue's contents, and the pull leaves the
queue itself untouched. -/
theorem c3_amended_pull_ignores_pending_deletes (now : Int) (f : Fetches)
    (st : Store) (l : List Rec) (r : Rec)
    (hp : f.products = .ok l) (hr : r ∈ l) :
    r ∈ (((syncFromServer now f st).2.productsCache.map CachedData.data).getD []) ∧
    (syncFromServer now f st).2.queue = st.queue := by
  obtain ⟨fp, fs, fsl, fc⟩ := f
  simp only at hp
  subst hp
  cases fs <;> cases fsl <;> cases fc <;>
    simp [syncFromServer, syncProductsWithConflictResolution, cacheProducts,
      syncSalesWithConflictResolution, cacheSales, cacheSellers, cacheCategories,
      hr]

/-- Witness for `c3_amended_pull_ignores_pending_deletes` at the C3
fixtures. -/
theorem c3_amended_pull_ignores_pending_deletes_witness :
    (exC3Fetches.products = .ok [exServerP1] ∧ exServerP1 ∈ [exServerP1]) ∧
    (exServerP1 ∈
      (((syncFromServer 100 exC3Fetches exPendingDeleteStore).2.productsCache.map
        CachedData.data).getD []) ∧
    (syncFromServer 100 exC3Fetches exPendingDeleteStore).2.queue =
      exPendingDeleteStore.queue) :=
  ⟨⟨rfl, by decide⟩,
    c3_amended_pull_ignores_pending_deletes 100 exC3Fetches exPendingDeleteStore
      [exServerP1] exServerP1 rfl (by decide)⟩

/-- **C4**: every `syncAll` invocation that actually enters a sync cycle
(the in-progress guard is clear and the online flag is set) writes the
persisted sync status exactly once before returning — the write counter
advances by exactly one and the stored status carries the cycle's
failed-item count — whether the cycle fully succeeded, partially succeeded,
or failed outright (`performSync`'s outer catch returns a result instead of
throwing, so the status write is reached on every such path). -/
theorem c4_sync_status_written_exactly_once (fails : QueueItem → Bool) (now : Int)
    (f : Fetches) (s : ServiceState)
    (hprog : s.syncInProgress = false) (hon : s.isOnline = true) :
    (syncAll fails now f s).2.1.statusWrites = s.statusWrites + 1 ∧
    (syncAll fails now f s).2.1.store.syncStatus =
      some { lastSync := now, isOnline := true,
             pendingItems := (syncAll fails now f s).1.failedItems } ∧
    (syncAll fails now f s).2.2.2 = SyncBranch.ran := by
  rcases hps : performSync fails now f s.store with ⟨result, st', calls⟩
  simp [syncAll, hprog, hon, hps, setSyncStatus]

/-- Witness for `c4_sync_status_written_exactly_once` on the empty store
with an all-failing remote. -/
theorem c4_sync_status_written_exactly_once_witness :
    ((initialService emptyStore).syncInProgress = false ∧
      (initialService emptyStore).isOnline = true) ∧
    ((syncAll (fun _ => true) 7 exC3Fetches (initialService emptyStore)).2.1.statusWrites =
      (initialService emptyStore).statusWrites + 1 ∧
    (syncAll (fun _ => true) 7 exC3Fetches (initialService emptyStore)).2.1.store.syncStatus =
      some { lastSync := 7, isOnline := true,
             pendingItems :=
               (syncAll (fun _ => true) 7 exC3Fetches (initialService emptyStore)).1.failedItems } ∧
    (syncAll (fun _ => true) 7 exC3Fetches (initialService emptyStore)).2.2.2 =
      SyncBranch.ran) :=
  ⟨⟨rfl, rfl⟩,
    c4_sync_status_written_exactly_once (fun _ => true) 7 exC3Fetches
      (initialService emptyStore) rfl rfl⟩

/-- **C8**: when the in-memory guard flag is set, `syncAll` returns
immediately with the "Sync already in progress" result (`success = false`,
zero synced and failed items), performs no remote calls, and leaves the
entire service state — queue store and entity caches included —
unchanged. -/
theorem c8_reentrancy_guard (fails : QueueItem → Bool) (now : Int) (f : Fetches)
    (s : ServiceState) (h : s.syncInProgress = true) :
    syncAll fails now f s =
      ({ success := false, syncedItems := 0, failedItems := 0,
         errors := ["Sync already in progress"] }, s, [],
        SyncBranch.alreadyInProgress) := by
  simp [syncAll, h]

/-- Witness for `c8_reentrancy_guard` at a concrete mid-cycle state. -/
theorem c8_reentrancy_guard_witness :
    ({ initialService exRetryStore with syncInProgress := true }
        : ServiceState).syncInProgress = true ∧
    syncAll (fun _ => true) 9 exC3Fetches
      { initialService exRetryStore with syncInProgress := true } =
      ({ success := false, syncedItems := 0, failedItems := 0,
         errors := ["Sync already in progress"] },
        { initialService exRetryStore with syncInProgress := true }, [],
        SyncBranch.alreadyInProgress) :=
  ⟨rfl,
    c8_reentrancy_guard (fun _ => true) 9 exC3Fetches
      { initialService exRetryStore with syncInProgress := true } rfl⟩

theorem syncAll_isOnline (fails : QueueItem → Bool) (now : Int) (f : Fetches)
    (s : ServiceState) : (syncAll fails now f s).2.1.isOnline = s.isOnline := by
  rcases hps : performSync fails now f s.store with ⟨result, st', calls⟩
  by_cases h1 : s.syncInProgress
  · simp [syncAll, h1]
  · by_cases h2 : s.isOnline <;> simp [syncAll, h1, h2, hps]

theorem queueOperation_isOnline (table : Table) (type : OpType) (data : Payload)
    (remoteFails : Bool) (now : Int) (nonce : String) (s : ServiceState) :
    (queueOperation table type data remoteFails now nonce s).2.2.isOnline =
      s.isOnline := by
  by_cases h : s.isOnline <;> by_cases hrf : remoteFails <;>
    simp [queueOperation, h, hrf]

theorem serviceStep_isOnline (s : ServiceState) (op : SOp)
    (h : s.isOnline = true) : (serviceStep s op).isOnline = true := by
  cases op with
  | initializeOp => rfl
  | checkOnlineStatusOp _ _ => exact h
  | syncAllOp fails now f => rw [serviceStep, syncAll_isOnline]; exact h
  | forceSyncOp fails now f => rw [serviceStep, syncAll_isOnline]; exact h
  | queueOperationOp table type data remoteFails now nonce =>
      rw [serviceStep, queueOperation_isOnline]; exact h
  | getCachedDataOp _ => exact h
  | getSyncStatusOp => exact h
  | clearOfflineDataOp => exact h
  | getPendingOperationsCountOp => exact h
  | retryFailedOperationsOp fails => exact h

theorem runOps_isOnline (ops : List SOp) (s : ServiceState)
    (h : s.isOnline = true) : (runOps s ops).isOnline = true := by
  induction ops generalizing s with
  | nil => exact h
  | cons op rest ih => exact ih (serviceStep s op) (serviceStep_isOnline s op h)

/-- **C10**: in every state reachable from the initial service state (for
any initial store contents and any sequence of public entry points), the
in-memory online flag is `true` — it starts `true`, `initialize` re-assigns
`true`, and `checkOnlineStatus` returns its answer without assigning it —
so `queueOperation` never takes the enqueue-without-attempting offline
branch, and `syncAll` never takes the "Device is offline" branch. -/
theorem c10_always_online (st : Store) (ops : List SOp) :
    (runOps (initialService st) ops).isOnline = true ∧
    (∀ (fails : QueueItem → Bool) (now : Int) (f : Fetches),
      (syncAll fails now f (runOps (initialService st) ops)).2.2.2 ≠
        SyncBranch.offline) ∧
    (∀ (table : Table) (type : OpType) (data : Payload) (remoteFails : Bool)
        (now : Int) (nonce : String),
      (queueOperation table type data remoteFails now nonce
        (runOps (initialService st) ops)).1 = false) := by
  have hon : (runOps (initialService st) ops).isOnline = true :=
    runOps_isOnline ops (initialService st) rfl
  refine ⟨hon, ?_, ?_⟩
  · intro fails now f
    rcases hps : performSync fails now f (runOps (initialService st) ops).store
      with ⟨result, st', calls⟩
    by_cases h1 : (runOps (initialService st) ops).syncInProgress
    · simp [syncAll, h1]
    · simp [syncAll, h1, hon, hps]
  · intro table type data remoteFails now nonce
    by_cases hrf : remoteFails <;> simp [queueOperation, hon, hrf]

end SalesHub
